import Mathlib

/-!
Verification development for the `assets_creator` local MCP tool server
(`src/main.js`). The development shallowly embeds the parts of the program
the specification talks about:

* the POSIX-lexical path arithmetic of Node's `path` module as used by
  `LocalMCPServer.resolvePath` (`path.resolve`, `path.relative`,
  `path.isAbsolute`, `String.prototype.startsWith`), with absolute paths
  represented as lists of segments;
* a JSON value type standing for the values produced by `JSON.parse`;
* a finite-map filesystem standing for the `fs/promises` operations the
  four tool handlers perform (`readFile`, `writeFile`, `mkdir recursive`,
  `readdir withFileTypes`);
* the four tool handlers, the `tools/call` dispatch, `handleRequest`,
  `handleNotification` and the per-line `run` loop of `LocalMCPServer`.

JavaScript `undefined` (an absent object member) is `Option.none`;
JSON `null` is the explicit constructor `Json.null`. Tool handlers are
functions from a filesystem to a filesystem paired with either a
`ToolResult` or a thrown error (`MCPServerError` versus any other error,
which the dispatch boundary distinguishes). The Gemini network client is
an oracle function supplied in the server state; `localeCompare` is
modelled as lexicographic comparison of code points.
-/

namespace AssetsCreator

/-! ## Node `path` module (POSIX), as used by `resolvePath` -/

/-- One step of Node path normalization: `.` and empty segments are dropped,
`..` pops the last accumulated segment (a no-op at the root of an absolute
path), anything else is appended. -/
def normStep (acc : List String) (seg : String) : List String :=
  if seg = "" ∨ seg = "." then acc
  else if seg = ".." then acc.dropLast
  else acc ++ [seg]

/-- Normalization of an absolute path given as raw `/`-separated segments:
collapse `.`, `..` and redundant separators. -/
def normalizeSegs (segs : List String) : List String :=
  segs.foldl normStep []

/-- Splitting a path string at `/` characters (accumulator holds the current
segment's characters in reverse). -/
def splitSegsAux : List Char → List Char → List String
  | [], cur => [String.mk cur.reverse]
  | c :: cs, cur =>
    if c = '/' then String.mk cur.reverse :: splitSegsAux cs []
    else splitSegsAux cs (c :: cur)

/-- Split a path string into its `/`-separated segments. -/
def splitPath (s : String) : List String :=
  splitSegsAux s.data []

/-- Node `path.isAbsolute` on POSIX: the string begins with `/`. -/
def jsIsAbsolute (s : String) : Bool :=
  match s.data with
  | c :: _ => c = '/'
  | [] => false

/-- Node `path.resolve(root, p)` for an already-normalized absolute `root`
(the constructor runs `path.resolve(root)`): an absolute `p` is normalized
on its own, a relative `p` is joined to `root` and normalized. -/
def resolve (root : List String) (p : String) : List String :=
  if jsIsAbsolute p then normalizeSegs (splitPath p)
  else normalizeSegs (root ++ splitPath p)

/-- Drop the longest common prefix of two segment lists, returning the two
remainders (the core of Node `path.relative`). -/
def dropCommon : List String → List String → List String × List String
  | a :: as, b :: bs => if a = b then dropCommon as bs else (a :: as, b :: bs)
  | as, bs => (as, bs)

/-- Node `path.relative(src, dst)` on normalized absolute segment lists:
one `..` per segment of `src` past the common prefix, then the rest of
`dst`. -/
def relativeSegs (src dst : List String) : List String :=
  List.replicate (dropCommon src dst).1.length ".." ++ (dropCommon src dst).2

/-- Join segments with the POSIX separator, as Node `path` does when it
renders a segment list back into a string. -/
def joinSegs : List String → String
  | [] => ""
  | [s] => s
  | s :: rest => s ++ "/" ++ joinSegs rest

/-- JavaScript `String.prototype.startsWith` (code-point prefix). -/
def jsStartsWith (pre s : String) : Bool :=
  List.isPrefixOf pre.data s.data

/-- `LocalMCPServer.resolvePath` (src/main.js:425-435): resolve the user
path against the root; accept the root itself; otherwise reject when the
relative path from the root starts with `..` or is absolute. -/
def resolvePath (root : List String) (p : String) : Except String (List String) :=
  let resolved := resolve root p
  if resolved = root then .ok resolved
  else
    let rel := joinSegs (relativeSegs root resolved)
    if jsStartsWith ".." rel ∨ jsIsAbsolute rel then
      .error ("Path '" ++ p ++ "' is outside of the server root.")
    else .ok resolved

/-- A segment a normalized path may contain: non-empty, not `.`, not `..`,
and free of the separator. Holds for every segment of a path produced by
`path.resolve`. -/
def PlainSeg (s : String) : Prop :=
  s ≠ "" ∧ s ≠ "." ∧ s ≠ ".." ∧ '/' ∉ s.data

instance (s : String) : Decidable (PlainSeg s) := by
  unfold PlainSeg; infer_instance

/-! ## JSON values (the output of `JSON.parse`) -/

/-- A JSON value. `JSON.parse` never yields `undefined`, so an absent
object member is `Option.none` at use sites, never a constructor here.
Numbers are modelled as integers (no claim computes with them). -/
inductive Json where
  | null
  | bool (b : Bool)
  | num (n : Int)
  | str (s : String)
  | arr (elems : List Json)
  | obj (fields : List (String × Json))

/-- JavaScript member access `j.k` on a parsed value: a member of an
object, `undefined` (`none`) otherwise — in particular on arrays and
primitives, matching destructuring from a non-object. -/
def Json.getField (j : Json) (k : String) : Option Json :=
  match j with
  | .obj fields => fields.lookup k
  | _ => none

/-- Rendering of a JSON value inside a template literal (used by the
`Unknown tool '${name}'.` and `Unsupported method '${method}'.`
messages). Array rendering is approximated by the empty string. -/
def jsDisplay : Json → String
  | .null => "null"
  | .bool true => "true"
  | .bool false => "false"
  | .num n => toString n
  | .str s => s
  | .arr _ => ""
  | .obj _ => "[object Object]"

/-! ## Filesystem model -/

/-- An absolute filesystem path: its normalized segments. -/
abbrev AbsPath := List String

/-- One filesystem object: a UTF-8 text file or a directory. -/
inductive FsEntry where
  | file (content : String)
  | dir
  deriving DecidableEq

/-- The filesystem: a finite map from absolute paths to entries, as an
association list (the root directory `[]` of the whole tree always
exists). -/
abbrev FS := List (AbsPath × FsEntry)

/-- Look a path up in the filesystem. -/
def FS.find (fs : FS) (p : AbsPath) : Option FsEntry :=
  List.lookup p fs

/-- Create or replace the entry at a path. -/
def FS.set (fs : FS) (p : AbsPath) (e : FsEntry) : FS :=
  (p, e) :: fs.filter (fun kv => kv.1 ≠ p)

/-- The error codes of the `fs/promises` failures the handlers inspect. -/
inductive FsCode where
  | ENOENT
  | EISDIR
  | ENOTDIR
  deriving DecidableEq

/-- A failed filesystem operation: its `error.code` and `error.message`. -/
structure FsFailure where
  code : FsCode
  msg : String
  deriving DecidableEq

/-- Does the path name an existing directory? The empty path is the root
of the whole tree and always a directory. -/
def fsIsDir (fs : FS) (p : AbsPath) : Bool :=
  if p = [] then true
  else
    match fs.find p with
    | some .dir => true
    | _ => false

/-- `fs.readFile(p, utf-8)`: the file's text, or `ENOENT` / `EISDIR`. -/
def fsRead (fs : FS) (p : AbsPath) : Except FsFailure String :=
  match fs.find p with
  | some (.file c) => .ok c
  | some .dir => .error ⟨.EISDIR, "EISDIR"⟩
  | none => .error ⟨.ENOENT, "ENOENT"⟩

/-- `fs.writeFile(p, content, utf-8)`: full replacement; `EISDIR` when the
path is a directory, `ENOENT` when the parent directory is missing. -/
def fsWrite (fs : FS) (p : AbsPath) (content : String) : Except FsFailure FS :=
  match fs.find p with
  | some .dir => .error ⟨.EISDIR, "EISDIR"⟩
  | _ =>
    if fsIsDir fs p.dropLast then .ok (fs.set p (.file content))
    else .error ⟨.ENOENT, "ENOENT"⟩

/-- `fs.mkdir(p, recursive)` worker: create each missing prefix in order,
stopping (with the filesystem as mutated so far) when a prefix already
exists as a file. -/
def mkdirRecAux (fs : FS) (done : AbsPath) : List String → FS × Option FsFailure
  | [] => (fs, none)
  | seg :: rest =>
    let q := done ++ [seg]
    match fs.find q with
    | some (.file _) => (fs, some ⟨.ENOTDIR, "ENOTDIR"⟩)
    | some .dir => mkdirRecAux fs q rest
    | none => mkdirRecAux (fs.set q .dir) q rest

/-- `fs.mkdir(p, recursive: true)`. -/
def fsMkdirRec (fs : FS) (p : AbsPath) : FS × Option FsFailure :=
  mkdirRecAux fs [] p

/-- The direct children of a directory: name and entry of every path one
segment below it, in map order (`readdir` order before sorting). -/
def childEntries (fs : FS) (p : AbsPath) : List (String × FsEntry) :=
  fs.filterMap (fun kv =>
    match kv.1.getLast? with
    | some name => if kv.1.dropLast = p then some (name, kv.2) else none
    | none => none)

/-- `fs.readdir(p, withFileTypes: true)`. -/
def fsReaddir (fs : FS) (p : AbsPath) : Except FsFailure (List (String × FsEntry)) :=
  match fs.find p with
  | some .dir => .ok (childEntries fs p)
  | some (.file _) => .error ⟨.ENOTDIR, "ENOTDIR"⟩
  | none => .error ⟨.ENOENT, "ENOENT"⟩

/-! ## The server: state, Gemini client, tool results -/

/-- The request `GeminiClient.generate` forwards to the network model:
prompt, the system prompt actually placed in `contents` (a falsy — empty —
system prompt is dropped), and the sampling parameters placed in
`generationConfig`. -/
structure GenRequest where
  prompt : String
  systemUsed : Option String
  temperature : Option Int
  topP : Option Int

/-- The network call `model.generateContent` behind `GeminiClient`: an
oracle from the built request to generated text or an upstream failure
(`.ok ""` stands for a response with no text output). -/
abbrev GeminiOracle := GenRequest → Except String String

/-- `LocalMCPServer` construction state: the resolved root and the Gemini
client, `none` when construction failed (missing key). The tool registry
is the fixed table `toolNames` / `callTool`. -/
structure ServerState where
  root : AbsPath
  gemini : Option GeminiOracle

/-- What a tool handler returns: JS `{ text }` objects carry no `isError`
member, and the dispatch reads `Boolean(toolResult?.isError)`, so the
field defaults to `false`. -/
structure ToolResult where
  text : String
  isError : Bool := false
  deriving DecidableEq

/-- An error thrown by a tool handler: an `MCPServerError` (whose message
the dispatch forwards verbatim) or any other thrown error (which the
dispatch prefixes with `Tool failed: `). -/
inductive HandlerError where
  | mcp (msg : String)
  | raw (msg : String)
  deriving DecidableEq

/-- `GeminiClient.generate` (src/main.js:34-72): reject a falsy prompt,
drop a falsy system prompt from `contents`, forward to the model, and
wrap every failure of the guarded region — including the missing-text
check, which sits inside the `try` — as `Gemini call failed: …`. -/
def generateModel (oracle : GeminiOracle) (prompt : String)
    (systemPrompt : Option String) (temperature topP : Option Int) :
    Except String String :=
  if prompt = "" then .error "'prompt' must be a non-empty string."
  else
    let systemUsed :=
      match systemPrompt with
      | some s => if s = "" then none else some s
      | none => none
    match oracle ⟨prompt, systemUsed, temperature, topP⟩ with
    | .ok t =>
      if t = "" then
        .error "Gemini call failed: Gemini response did not contain text output."
      else .ok t
    | .error m => .error ("Gemini call failed: " ++ m)

/-! ## The four tool handlers -/

/-- `handleReadFile` (src/main.js:326-344). -/
def handleReadFile (st : ServerState) (fs : FS) (args : Json) :
    FS × Except HandlerError ToolResult :=
  match args.getField "path" with
  | some (.str userPath) =>
    match resolvePath st.root userPath with
    | .error m => (fs, .error (.mcp m))
    | .ok resolved =>
      match fsRead fs resolved with
      | .ok data => (fs, .ok { text := data })
      | .error e =>
        if e.code = .ENOENT then
          (fs, .error (.mcp ("File not found: " ++ userPath)))
        else if e.code = .EISDIR then
          (fs, .error (.mcp ("Path is a directory: " ++ userPath)))
        else
          (fs, .error (.mcp ("Failed to read file " ++ userPath ++ ": " ++ e.msg)))
  | _ => (fs, .error (.mcp "'path' must be a string."))

/-- `handleWriteFile` (src/main.js:346-372): validate `path`, `content`
and `create_parents` (destructuring default `false` applies only when the
member is absent), resolve, optionally create parent directories, then
write. A failure of the unguarded `mkdir` call propagates as a raw error
and keeps whatever directories were already created. -/
def handleWriteFile (st : ServerState) (fs : FS) (args : Json) :
    FS × Except HandlerError ToolResult :=
  match args.getField "path" with
  | some (.str userPath) =>
    match args.getField "content" with
    | some (.str content) =>
      let cpV : Except HandlerError Bool :=
        match args.getField "create_parents" with
        | none => .ok false
        | some (.bool b) => .ok b
        | some _ => .error (.mcp "'create_parents' must be a boolean.")
      match cpV with
      | .error e => (fs, .error e)
      | .ok createParents =>
        match resolvePath st.root userPath with
        | .error m => (fs, .error (.mcp m))
        | .ok resolved =>
          let mk := if createParents then fsMkdirRec fs resolved.dropLast else (fs, none)
          match mk.2 with
          | some e => (mk.1, .error (.raw e.msg))
          | none =>
            match fsWrite mk.1 resolved content with
            | .ok fs2 =>
              (fs2, .ok { text := "Wrote " ++ joinSegs (relativeSegs st.root resolved) })
            | .error e =>
              if e.code = .EISDIR then
                (mk.1, .error (.mcp ("Cannot write to directory path: " ++ userPath)))
              else
                (mk.1, .error (.mcp ("Failed to write file " ++ userPath ++ ": " ++ e.msg)))
    | _ => (fs, .error (.mcp "'content' must be a string."))
  | _ => (fs, .error (.mcp "'path' must be a string."))

/-- The comparator the listing is sorted by: `a.localeCompare(b)`,
modelled as lexicographic comparison of code points. -/
def charListLe : List Char → List Char → Bool
  | [], _ => true
  | _ :: _, [] => false
  | a :: as, b :: bs => if a = b then charListLe as bs else decide (a.toNat < b.toNat)

/-- Lexicographic string comparison (the model of `localeCompare ≤ 0`). -/
def segLe (a b : String) : Bool :=
  charListLe a.data b.data

/-- `segLe` as a relation, the sort order of `list_dir` output. -/
def SegLe (a b : String) : Prop :=
  segLe a b = true

instance : DecidableRel SegLe := fun a b => by
  unfold SegLe; infer_instance

/-- Join with newlines (`names.join("\n")`). -/
def joinLines : List String → String
  | [] => ""
  | [s] => s
  | s :: rest => s ++ "\n" ++ joinLines rest

/-- The marked name of one directory entry: directories get a trailing
separator (`entry.isDirectory() ? name + "/" : name`). -/
def markEntry (en : String × FsEntry) : String :=
  if en.2 = .dir then en.1 ++ "/" else en.1

/-- `handleListDir` (src/main.js:374-393): `args?.path ?? "."` coalesces
both an absent and a `null` path to `"."`; list direct children, mark
directories, sort, join with newlines, and render an empty join as the
literal `(empty)`. -/
def handleListDir (st : ServerState) (fs : FS) (args : Json) :
    FS × Except HandlerError ToolResult :=
  let pathV : Except HandlerError String :=
    match args.getField "path" with
    | none => .ok "."
    | some .null => .ok "."
    | some (.str s) => .ok s
    | some _ => .error (.mcp "'path' must be a string.")
  match pathV with
  | .error e => (fs, .error e)
  | .ok userPath =>
    match resolvePath st.root userPath with
    | .error m => (fs, .error (.mcp m))
    | .ok resolved =>
      match fsReaddir fs resolved with
      | .error e =>
        if e.code = .ENOENT then
          (fs, .error (.mcp ("Directory not found: " ++ userPath)))
        else
          (fs, .error (.mcp ("Failed to list directory " ++ userPath ++ ": " ++ e.msg)))
      | .ok entries =>
        let names := entries.map markEntry
        let joined := joinLines (List.insertionSort SegLe names)
        (fs, .ok { text := if joined = "" then "(empty)" else joined })

/-- `handleCallGemini` (src/main.js:395-423): the configured-client check
comes first, then the four type checks in declaration order, then the
forwarded call. -/
def handleCallGemini (st : ServerState) (fs : FS) (args : Json) :
    FS × Except HandlerError ToolResult :=
  match st.gemini with
  | none =>
    (fs, .error (.mcp "Gemini client is not configured. Ensure @google/generative-ai is installed and GOOGLE_API_KEY is exported."))
  | some oracle =>
    match args.getField "prompt" with
    | some (.str prompt) =>
      let sysV : Except HandlerError (Option String) :=
        match args.getField "system_prompt" with
        | none => .ok none
        | some (.str s) => .ok (some s)
        | some _ => .error (.mcp "'system_prompt' must be a string when provided.")
      match sysV with
      | .error e => (fs, .error e)
      | .ok systemPrompt =>
        let tempV : Except HandlerError (Option Int) :=
          match args.getField "temperature" with
          | none => .ok none
          | some (.num n) => .ok (some n)
          | some _ => .error (.mcp "'temperature' must be numeric when provided.")
        match tempV with
        | .error e => (fs, .error e)
        | .ok temperature =>
          let topV : Except HandlerError (Option Int) :=
            match args.getField "top_p" with
            | none => .ok none
            | some (.num n) => .ok (some n)
            | some _ => .error (.mcp "'top_p' must be numeric when provided.")
          match topV with
          | .error e => (fs, .error e)
          | .ok topP =>
            match generateModel oracle prompt systemPrompt temperature topP with
            | .ok text => (fs, .ok { text := text })
            | .error m => (fs, .error (.mcp m))
    | _ => (fs, .error (.mcp "'prompt' must be a string."))

/-! ## Tool registry and protocol engine -/

/-- The registered tool names, in `Map` insertion order (src/main.js:101-198). -/
def toolNames : List String :=
  ["read_file", "write_file", "list_dir", "call_gemini"]

/-- Dispatch to the registered tool's handler. The final arm is dead code:
the caller checks registration first. -/
def callTool (st : ServerState) (fs : FS) (name : String) (args : Json) :
    FS × Except HandlerError ToolResult :=
  if name = "read_file" then handleReadFile st fs args
  else if name = "write_file" then handleWriteFile st fs args
  else if name = "list_dir" then handleListDir st fs args
  else if name = "call_gemini" then handleCallGemini st fs args
  else (fs, .error (.raw "unreachable: unregistered tool"))

/-- A JSON-RPC error response `{jsonrpc, id, error: {code, message}}`
(`sendError` / `jsonrpcError`, src/main.js:441-462; no `data` member is
ever supplied). -/
def jsonrpcError (id : Json) (code : Int) (message : String) : Json :=
  .obj [("jsonrpc", .str "2.0"), ("id", id),
        ("error", .obj [("code", .num code), ("message", .str message)])]

/-- A JSON-RPC success response `{jsonrpc, id, result}`. -/
def mkResult (id : Json) (r : Json) : Json :=
  .obj [("jsonrpc", .str "2.0"), ("id", id), ("result", r)]

/-- The `tools/call` result envelope
`{content: [{type: "text", text}], isError}`. -/
def toolCallEnvelope (id : Json) (text : String) (isErr : Bool) : Json :=
  mkResult id (.obj [
    ("content", .arr [.obj [("type", .str "text"), ("text", .str text)]]),
    ("isError", .bool isErr)])

/-- The `initialize` result (src/main.js:240-254). -/
def initializeResult : Json :=
  .obj [("protocolVersion", .str "2024-01-01"),
        ("capabilities", .obj [("tools", .bool true)]),
        ("serverInfo", .obj [("name", .str "assets-creator"),
                             ("version", .str "0.1.0")])]

/-- The input schema of one registered tool, as listed by `tools/list`. -/
def toolSchema : String → Json
  | "read_file" =>
    .obj [("type", .str "object"),
          ("properties", .obj [
            ("path", .obj [("type", .str "string"),
                           ("description", .str "Path relative to the configured root.")])]),
          ("required", .arr [.str "path"]),
          ("additionalProperties", .bool false)]
  | "write_file" =>
    .obj [("type", .str "object"),
          ("properties", .obj [
            ("path", .obj [("type", .str "string"),
                           ("description", .str "Path relative to the configured root.")]),
            ("content", .obj [("type", .str "string"),
                              ("description", .str "Content that will replace the file.")]),
            ("create_parents", .obj [("type", .str "boolean"),
                                     ("description", .str "Create parent directories when missing.")])]),
          ("required", .arr [.str "path", .str "content"]),
          ("additionalProperties", .bool false)]
  | "list_dir" =>
    .obj [("type", .str "object"),
          ("properties", .obj [
            ("path", .obj [("type", .str "string"),
                           ("description", .str "Directory path relative to the root. Defaults to '.'.")])]),
          ("required", .arr []),
          ("additionalProperties", .bool false)]
  | _ =>
    .obj [("type", .str "object"),
          ("properties", .obj [
            ("prompt", .obj [("type", .str "string"),
                             ("description", .str "User prompt sent to Gemini.")]),
            ("system_prompt", .obj [("type", .str "string"),
                                    ("description", .str "Optional system prompt to guide Gemini.")]),
            ("temperature", .obj [("type", .str "number"),
                                  ("description", .str "Sampling temperature (0.0-1.0).")]),
            ("top_p", .obj [("type", .str "number"),
                            ("description", .str "Top-p nucleus sampling threshold.")])]),
          ("required", .arr [.str "prompt"]),
          ("additionalProperties", .bool false)]

/-- The description of one registered tool. -/
def toolDescription : String → String
  | "read_file" => "Read a UTF-8 encoded text file relative to the server root."
  | "write_file" => "Write UTF-8 encoded content to a file relative to the server root."
  | "list_dir" => "List files at a path relative to the server root."
  | _ => "Send a prompt to the Gemini Nano Banana model to create game assets."

/-- The `tools/list` result: the registry's entries in insertion order
plus a null continuation cursor (src/main.js:255-267). -/
def toolsListResult : Json :=
  .obj [("tools", .arr (toolNames.map (fun nm =>
          .obj [("name", .str nm),
                ("description", .str (toolDescription nm)),
                ("inputSchema", toolSchema nm)]))),
        ("nextCursor", .null)]

/-- The `tools/call` request method (src/main.js:268-303): the
registration check precedes the arguments-shape check; `arguments`
defaults to `{}` only when absent; a handler failure becomes a
*successful* response whose envelope carries the message and
`isError: true`. -/
def handleToolsCall (st : ServerState) (fs : FS) (id : Json) (params : Json) :
    FS × Json :=
  match params.getField "name" with
  | some (.str nm) =>
    if toolNames.contains nm then
      let args := (params.getField "arguments").getD (.obj [])
      match args with
      | .obj _ =>
        match callTool st fs nm args with
        | (fs2, .ok r) => (fs2, toolCallEnvelope id r.text r.isError)
        | (fs2, .error (.mcp m)) => (fs2, toolCallEnvelope id m true)
        | (fs2, .error (.raw m)) => (fs2, toolCallEnvelope id ("Tool failed: " ++ m) true)
      | _ => (fs, jsonrpcError id (-32602) "arguments must be an object.")
    else (fs, jsonrpcError id (-32601) ("Unknown tool '" ++ nm ++ "'."))
  | some v =>
    (fs, jsonrpcError id (-32601) ("Unknown tool '" ++ jsDisplay v ++ "'."))
  | none =>
    (fs, jsonrpcError id (-32601) "Unknown tool 'undefined'.")

/-- `handleRequest` (src/main.js:238-311): the five built-in methods, and
a `-32601` protocol error for anything else (including a non-string
`method`). -/
def handleRequest (st : ServerState) (fs : FS) (id : Json) (method : Json)
    (params : Json) : FS × Json :=
  match method with
  | .str "initialize" => (fs, mkResult id initializeResult)
  | .str "tools/list" => (fs, mkResult id toolsListResult)
  | .str "tools/call" => handleToolsCall st fs id params
  | .str "ping" => (fs, mkResult id (.str "pong"))
  | .str "shutdown" => (fs, mkResult id .null)
  | _ => (fs, jsonrpcError id (-32601) ("Unsupported method '" ++ jsDisplay method ++ "'."))

/-- `handleNotification` (src/main.js:313-324): only `exit` has an
observable effect — it terminates the process with status 0. -/
def notifExits : Json → Bool
  | .str s => s = "exit"
  | _ => false

/-! ## The per-line loop (`run`, src/main.js:201-236) -/

/-- One trimmed input line after the `JSON.parse` attempt: blank (skipped),
unparsable (a `-32700` transport error), or a parsed JSON value. -/
inductive Line where
  | blank
  | invalid
  | msg (j : Json)

/-- Processing of one input line: the filesystem afterwards, the responses
written for this line, and whether the process terminated (the `exit`
notification). A parsed non-object, or an object without a `method`
member, is silently dropped; a `method`-bearing object is a request
exactly when `id` is a present member (an explicit `null` id still
satisfies `id !== undefined`), and a notification otherwise. -/
def processLine (st : ServerState) (fs : FS) (l : Line) : FS × List Json × Bool :=
  match l with
  | .blank => (fs, [], false)
  | .invalid => (fs, [jsonrpcError .null (-32700) "Invalid JSON received."], false)
  | .msg j =>
    match j with
    | .obj fields =>
      match fields.lookup "method" with
      | some method =>
        let params := (fields.lookup "params").getD (.obj [])
        match fields.lookup "id" with
        | some id =>
          let r := handleRequest st fs id method params
          (r.1, [r.2], false)
        | none => (fs, [], notifExits method)
      | none => (fs, [], false)
    | _ => (fs, [], false)

/-- The session loop: lines are processed strictly in order, each one's
responses written before the next line is read; an `exit` notification
stops the loop. -/
def run (st : ServerState) (fs : FS) : List Line → List Json
  | [] => []
  | l :: ls =>
    let r := processLine st fs l
    if r.2.2 then r.2.1 else r.2.1 ++ run st r.1 ls

/-! ## Concrete fixtures for witnesses -/

/-- A concrete server without a Gemini client, rooted at `/sandbox`. -/
def sandboxState : ServerState := ⟨["sandbox"], none⟩

/-- A concrete server whose Gemini oracle always succeeds. -/
def sandboxStateGem : ServerState := ⟨["sandbox"], some (fun _ => .ok "generated")⟩

/-- A filesystem holding only the root directory. -/
def emptySandbox : FS := [(["sandbox"], .dir)]

/-- The spec's listing scenario: `/sandbox` holding file `b.txt` and
directory `a/`. -/
def scenarioFS : FS :=
  [(["sandbox"], .dir), (["sandbox", "b.txt"], .file "x"), (["sandbox", "a"], .dir)]

/-! ## Order instances for the listing comparator -/

instance : IsTotal String SegLe := by
  constructor
  intro a b
  unfold SegLe segLe
  generalize a.data = x
  generalize b.data = y
  induction x generalizing y with
  | nil => exact Or.inl rfl
  | cons c cs ih =>
    cases y with
    | nil => exact Or.inr rfl
    | cons d ds =>
      by_cases h : c = d
      · subst h
        rw [charListLe, if_pos rfl, charListLe, if_pos rfl]
        exact ih ds
      · rcases Nat.lt_or_ge c.toNat d.toNat with hlt | hge
        · exact Or.inl (by rw [charListLe, if_neg h]; exact decide_eq_true hlt)
        · have hne : c.toNat ≠ d.toNat := fun he => h (Char.ext (UInt32.ext he))
          have hdc : d.toNat < c.toNat := Nat.lt_of_le_of_ne hge (fun he => hne he.symm)
          have hdc' : d ≠ c := fun he => h he.symm
          exact Or.inr (by rw [charListLe, if_neg hdc']; exact decide_eq_true hdc)

instance : IsTrans String SegLe := by
  constructor
  have key : ∀ x y z : List Char, charListLe x y = true → charListLe y z = true →
      charListLe x z = true := by
    intro x
    induction x with
    | nil => intro y z _ _; rfl
    | cons cx xs ih =>
      intro y z hxy hyz
      cases y with
      | nil => rw [charListLe] at hxy; exact absurd hxy (by simp)
      | cons cy ys =>
        cases z with
        | nil => rw [charListLe] at hyz; exact absurd hyz (by simp)
        | cons cz zs =>
          by_cases h1 : cx = cy
          · subst h1
            rw [charListLe, if_pos rfl] at hxy
            by_cases h2 : cx = cz
            · subst h2
              rw [charListLe, if_pos rfl] at hyz ⊢
              exact ih ys zs hxy hyz
            · rw [charListLe, if_neg h2] at hyz ⊢
              exact hyz
          · rw [charListLe, if_neg h1] at hxy
            have hxylt : cx.toNat < cy.toNat := of_decide_eq_true hxy
            by_cases h2 : cy = cz
            · subst h2
              rw [charListLe, if_neg h1]
              exact decide_eq_true hxylt
            · rw [charListLe, if_neg h2] at hyz
              have hyzlt : cy.toNat < cz.toNat := of_decide_eq_true hyz
              have hlt : cx.toNat < cz.toNat := Nat.lt_trans hxylt hyzlt
              have hne : cx ≠ cz := by
                intro he
                subst he
                exact absurd hlt (Nat.lt_irrefl _)
              rw [charListLe, if_neg hne]
              exact decide_eq_true hlt
  intro a b c hab hbc
  exact key a.data b.data c.data hab hbc

/-! ## Response-shape lemmas -/

theorem jsonrpcError_getField_id (id : Json) (code : Int) (m : String) :
    (jsonrpcError id code m).getField "id" = some id := rfl

theorem mkResult_getField_id (id r : Json) :
    (mkResult id r).getField "id" = some id := rfl

theorem toolCallEnvelope_getField_id (id : Json) (t : String) (e : Bool) :
    (toolCallEnvelope id t e).getField "id" = some id := rfl

theorem handleToolsCall_getField_id (st : ServerState) (fs : FS) (id params : Json) :
    ((handleToolsCall st fs id params).2).getField "id" = some id := by
  unfold handleToolsCall
  split
  · split
    · dsimp only
      split
      · split <;> rfl
      · rfl
    · rfl
  · rfl
  · rfl

theorem handleRequest_getField_id (st : ServerState) (fs : FS) (id method params : Json) :
    ((handleRequest st fs id method params).2).getField "id" = some id := by
  unfold handleRequest
  split
  · rfl
  · rfl
  · exact handleToolsCall_getField_id st fs id params
  · rfl
  · rfl
  · rfl

/-! ## Claim C6 -/

/-- C6: a non-empty input line that fails to parse as JSON makes the
engine emit a transport-level error response whose id is null and whose
error code is -32700, after which the session continues processing the
remaining lines. -/
theorem parse_error_reported_and_session_continues (st : ServerState) (fs : FS)
    (ls : List Line) :
    processLine st fs .invalid =
      (fs, [jsonrpcError .null (-32700) "Invalid JSON received."], false) ∧
    (jsonrpcError .null (-32700) "Invalid JSON received.").getField "id" = some .null ∧
    ((jsonrpcError .null (-32700) "Invalid JSON received.").getField "error").bind
        (fun e => e.getField "code") = some (.num (-32700)) ∧
    run st fs (.invalid :: ls) =
      jsonrpcError .null (-32700) "Invalid JSON received." :: run st fs ls := by
  refine ⟨rfl, rfl, rfl, ?_⟩
  rw [run]
  rfl

/-! ## Claim C10 -/

/-- C10: a parsed object carrying a `method` member and an `id` member
whose value is JSON null is dispatched as a request through the request
method table, and the single emitted response carries id null; an object
whose `id` member is entirely absent is dispatched as a notification and
emits nothing. -/
theorem null_id_dispatched_as_request (st : ServerState) (fs : FS)
    (fields : List (String × Json)) (method : Json) :
    (fields.lookup "method" = some method → fields.lookup "id" = some .null →
      processLine st fs (.msg (.obj fields)) =
        ((handleRequest st fs .null method ((fields.lookup "params").getD (.obj []))).1,
         [(handleRequest st fs .null method ((fields.lookup "params").getD (.obj []))).2],
         false) ∧
      ((handleRequest st fs .null method
          ((fields.lookup "params").getD (.obj []))).2).getField "id" = some .null) ∧
    (fields.lookup "method" = some method → fields.lookup "id" = none →
      processLine st fs (.msg (.obj fields)) = (fs, [], notifExits method)) := by
  constructor
  · intro hm hid
    refine ⟨?_, handleRequest_getField_id ..⟩
    simp only [processLine, hm, hid]
  · intro hm hid
    simp only [processLine, hm, hid]

theorem null_id_dispatched_as_request_witness :
    processLine sandboxState emptySandbox
        (.msg (.obj [("method", Json.str "ping"), ("id", Json.null)])) =
      (emptySandbox, [mkResult .null (.str "pong")], false) := by
  have h := (null_id_dispatched_as_request sandboxState emptySandbox
      [("method", Json.str "ping"), ("id", Json.null)] (.str "ping")).1 rfl rfl
  exact h.1.trans (by rfl)

/-! ## Claim C2 -/

/-- C2: an input line parsed to an object with a `method` member and a
present `id` yields exactly one response, that response carries the same
id, and it is written in order: the session's output is this response
followed by the output for the remaining lines. A parsed object without a
`method` member yields no response at all. -/
theorem one_response_per_request_in_order (st : ServerState) (fs : FS)
    (fields : List (String × Json)) (ls : List Line) :
    (∀ method id, fields.lookup "method" = some method →
      fields.lookup "id" = some id →
      processLine st fs (.msg (.obj fields)) =
        ((handleRequest st fs id method ((fields.lookup "params").getD (.obj []))).1,
         [(handleRequest st fs id method ((fields.lookup "params").getD (.obj []))).2],
         false) ∧
      ((handleRequest st fs id method
          ((fields.lookup "params").getD (.obj []))).2).getField "id" = some id ∧
      run st fs (.msg (.obj fields) :: ls) =
        (handleRequest st fs id method ((fields.lookup "params").getD (.obj []))).2 ::
          run st (handleRequest st fs id method
            ((fields.lookup "params").getD (.obj []))).1 ls) ∧
    (fields.lookup "method" = none →
      processLine st fs (.msg (.obj fields)) = (fs, [], false) ∧
      run st fs (.msg (.obj fields) :: ls) = run st fs ls) := by
  constructor
  · intro method id hm hid
    have hp : processLine st fs (.msg (.obj fields)) =
        ((handleRequest st fs id method ((fields.lookup "params").getD (.obj []))).1,
         [(handleRequest st fs id method ((fields.lookup "params").getD (.obj []))).2],
         false) := by
      simp only [processLine, hm, hid]
    refine ⟨hp, handleRequest_getField_id .., ?_⟩
    rw [run, hp]
    rfl
  · intro hm
    have hp : processLine st fs (.msg (.obj fields)) = (fs, [], false) := by
      simp only [processLine, hm]
    refine ⟨hp, ?_⟩
    rw [run, hp]
    rfl

theorem one_response_per_request_in_order_witness :
    run sandboxState emptySandbox
        [.msg (.obj [("method", Json.str "ping"), ("id", Json.num 1)])] =
      [mkResult (.num 1) (.str "pong")] := by
  have h := ((one_response_per_request_in_order sandboxState emptySandbox
      [("method", Json.str "ping"), ("id", Json.num 1)] []).1
      (.str "ping") (.num 1) rfl rfl).2.2
  exact h.trans (by rfl)

/-! ## Claim C5 -/

/-- C5: a `tools/call` request whose `name` is not a registered tool name
yields the protocol-level error response with code -32601 (an `error`
member and no `result` member), not a tool result with `isError`. -/
theorem unknown_tool_yields_protocol_error (st : ServerState) (fs : FS)
    (id params : Json) (nm : String) :
    params.getField "name" = some (.str nm) → toolNames.contains nm = false →
    handleRequest st fs id (.str "tools/call") params =
      (fs, jsonrpcError id (-32601) ("Unknown tool '" ++ nm ++ "'.")) ∧
    (jsonrpcError id (-32601) ("Unknown tool '" ++ nm ++ "'.")).getField "result" = none ∧
    ((jsonrpcError id (-32601) ("Unknown tool '" ++ nm ++ "'.")).getField "error").bind
        (fun e => e.getField "code") = some (.num (-32601)) := by
  intro hname hreg
  refine ⟨?_, rfl, rfl⟩
  show handleToolsCall st fs id params = _
  simp only [handleToolsCall, hname, hreg]
  rfl

/-! ## Claim C3 -/

/-- C3: a `tools/call` for a registered tool whose handler throws — an
`MCPServerError` or any other error — is answered with a *successful*
response (a `result` member, never an `error` member) whose content text
carries the error message and whose `isError` is true; a handler that
returns normally is answered with its text and its (default-false)
`isError` flag. -/
theorem tool_failure_is_successful_rpc (st : ServerState) (fs : FS)
    (id params : Json) (nm : String) (af : List (String × Json)) :
    params.getField "name" = some (.str nm) → toolNames.contains nm = true →
    params.getField "arguments" = some (.obj af) →
    (∀ m, (callTool st fs nm (.obj af)).2 = .error (.mcp m) →
      handleRequest st fs id (.str "tools/call") params =
        ((callTool st fs nm (.obj af)).1, toolCallEnvelope id m true)) ∧
    (∀ m, (callTool st fs nm (.obj af)).2 = .error (.raw m) →
      handleRequest st fs id (.str "tools/call") params =
        ((callTool st fs nm (.obj af)).1, toolCallEnvelope id ("Tool failed: " ++ m) true)) ∧
    (∀ r, (callTool st fs nm (.obj af)).2 = .ok r →
      handleRequest st fs id (.str "tools/call") params =
        ((callTool st fs nm (.obj af)).1, toolCallEnvelope id r.text r.isError)) ∧
    (∀ t e, (toolCallEnvelope id t e).getField "error" = none ∧
      (toolCallEnvelope id t e).getField "result" =
        some (.obj [("content", .arr [.obj [("type", .str "text"), ("text", .str t)]]),
                    ("isError", .bool e)])) := by
  intro hname hreg hargs
  have base : ∀ fs2 (res : Except HandlerError ToolResult),
      callTool st fs nm (.obj af) = (fs2, res) →
      handleRequest st fs id (.str "tools/call") params =
        (fs2, match res with
          | .ok r => toolCallEnvelope id r.text r.isError
          | .error (.mcp m) => toolCallEnvelope id m true
          | .error (.raw m) => toolCallEnvelope id ("Tool failed: " ++ m) true) := by
    intro fs2 res hc
    show handleToolsCall st fs id params = _
    simp only [handleToolsCall, hname, hreg, hargs, Option.getD_some, if_true]
    rw [hc]
    rcases res with e | r
    · rcases e with m | m <;> rfl
    · rfl
  refine ⟨?_, ?_, ?_, fun t e => ⟨rfl, rfl⟩⟩
  · intro m hm
    have h := base (callTool st fs nm (.obj af)).1 (callTool st fs nm (.obj af)).2 rfl
    rw [hm] at h
    exact h
  · intro m hm
    have h := base (callTool st fs nm (.obj af)).1 (callTool st fs nm (.obj af)).2 rfl
    rw [hm] at h
    exact h
  · intro r hr
    have h := base (callTool st fs nm (.obj af)).1 (callTool st fs nm (.obj af)).2 rfl
    rw [hr] at h
    exact h

theorem tool_failure_is_successful_rpc_witness :
    handleRequest sandboxState scenarioFS (.num 5) (.str "tools/call")
        (.obj [("name", .str "call_gemini"), ("arguments", .obj [("prompt", .str "x")])]) =
      (scenarioFS, toolCallEnvelope (.num 5)
        "Gemini client is not configured. Ensure @google/generative-ai is installed and GOOGLE_API_KEY is exported."
        true) := by
  have h := ((tool_failure_is_successful_rpc sandboxState scenarioFS (.num 5)
      (.obj [("name", .str "call_gemini"), ("arguments", .obj [("prompt", .str "x")])])
      "call_gemini" [("prompt", .str "x")] rfl rfl rfl).1)
      "Gemini client is not configured. Ensure @google/generative-ai is installed and GOOGLE_API_KEY is exported."
      rfl
  exact h.trans (by rfl)

/-! ## Claims C7 and C9: helper lemmas about the filesystem map -/

theorem FS.find_set_self (fs : FS) (p : AbsPath) (e : FsEntry) :
    (fs.set p e).find p = some e := by
  unfold FS.set FS.find
  simp [List.lookup]

theorem fsRead_set_file (fs : FS) (p : AbsPath) (c : String) :
    fsRead (fs.set p (.file c)) p = .ok c := by
  unfold fsRead
  rw [FS.find_set_self]

theorem fsWrite_ok_eq (fs : FS) (p : AbsPath) (c : String) (fs2 : FS) :
    fsWrite fs p c = .ok fs2 → fs2 = fs.set p (.file c) := by
  unfold fsWrite
  intro h
  split at h
  · cases h
  · split at h
    · cases h; rfl
    · cases h

/-! ## Claim C7 -/

/-- C7: a `write_file` invocation with a wrong-typed argument or a path
resolving outside the root fails before performing any side effect: the
filesystem it returns is exactly the one passed in (no file written, no
parent directory created), along with a thrown `MCPServerError`. -/
theorem write_file_invalid_args_no_side_effect (st : ServerState) (fs : FS)
    (args : Json) :
    ((∀ s, args.getField "path" ≠ some (.str s)) →
      handleWriteFile st fs args = (fs, .error (.mcp "'path' must be a string."))) ∧
    (∀ P, args.getField "path" = some (.str P) →
      (∀ s, args.getField "content" ≠ some (.str s)) →
      handleWriteFile st fs args = (fs, .error (.mcp "'content' must be a string."))) ∧
    (∀ P c v, args.getField "path" = some (.str P) →
      args.getField "content" = some (.str c) →
      args.getField "create_parents" = some v → (∀ b, v ≠ .bool b) →
      handleWriteFile st fs args = (fs, .error (.mcp "'create_parents' must be a boolean."))) ∧
    (∀ P c m, args.getField "path" = some (.str P) →
      args.getField "content" = some (.str c) →
      (args.getField "create_parents" = none ∨
        ∃ b, args.getField "create_parents" = some (.bool b)) →
      resolvePath st.root P = .error m →
      handleWriteFile st fs args = (fs, .error (.mcp m))) := by
  refine ⟨?_, ?_, ?_, ?_⟩
  · intro h
    rcases hp : args.getField "path" with _ | v
    · simp [handleWriteFile, hp]
    · cases v <;> first
        | exact absurd hp (h _)
        | simp [handleWriteFile, hp]
  · intro P hp h
    rcases hc : args.getField "content" with _ | v
    · simp [handleWriteFile, hp, hc]
    · cases v <;> first
        | exact absurd hc (h _)
        | simp [handleWriteFile, hp, hc]
  · intro P c v hp hc hcp hv
    cases v <;> first
      | exact absurd rfl (hv _)
      | simp [handleWriteFile, hp, hc, hcp]
  · intro P c m hp hc hcp hres
    rcases hcp with hcp | ⟨b, hcp⟩ <;>
      simp [handleWriteFile, hp, hc, hcp, hres]

theorem write_file_invalid_args_no_side_effect_witness :
    handleWriteFile sandboxState emptySandbox
        (.obj [("path", .str "../x"), ("content", .str "hi")]) =
      (emptySandbox, .error (.mcp "Path '../x' is outside of the server root.")) := by
  exact (write_file_invalid_args_no_side_effect sandboxState emptySandbox
      (.obj [("path", .str "../x"), ("content", .str "hi")])).2.2.2
      "../x" "hi" "Path '../x' is outside of the server root." rfl rfl (Or.inl rfl) rfl

/-! ## Claim C9 -/

/-- C9: when a `write_file` of content `s` at path `P` succeeds, a
`read_file` of the same `P` against the resulting filesystem returns a
result whose text is exactly `s` (UTF-8 text is stored and returned
verbatim by the model) with `isError` false, and leaves the filesystem
unchanged. -/
theorem write_then_read_roundtrip (st : ServerState) (fs fs2 : FS) (args : Json)
    (P s : String) (r : ToolResult) :
    args.getField "path" = some (.str P) →
    args.getField "content" = some (.str s) →
    handleWriteFile st fs args = (fs2, .ok r) →
    handleReadFile st fs2 (.obj [("path", .str P)]) = (fs2, .ok ⟨s, false⟩) := by
  intro hp hc hw
  unfold handleWriteFile at hw
  rw [hp, hc] at hw
  have hfield : Json.getField (.obj [("path", .str P)]) "path" = some (.str P) := rfl
  have finish : ∀ (mkp : FS × Option FsFailure) (resolved : AbsPath),
      resolvePath st.root P = .ok resolved →
      (match mkp.2 with
        | some e => (mkp.1, Except.error (HandlerError.raw e.msg))
        | none =>
          match fsWrite mkp.1 resolved s with
          | Except.ok fs3 =>
            (fs3, Except.ok
              { text := "Wrote " ++ joinSegs (relativeSegs st.root resolved),
                isError := false })
          | Except.error e =>
            if e.code = FsCode.EISDIR then
              (mkp.1, Except.error (HandlerError.mcp ("Cannot write to directory path: " ++ P)))
            else
              (mkp.1, Except.error
                (HandlerError.mcp ("Failed to write file " ++ P ++ ": " ++ e.msg)))) =
        (fs2, .ok r) →
      handleReadFile st fs2 (.obj [("path", .str P)]) = (fs2, .ok ⟨s, false⟩) := by
    intro mkp resolved hres hw
    rcases hmk : mkp.2 with _ | e <;> simp only [hmk] at hw
    · rcases hwr : fsWrite mkp.1 resolved s with e | fs3 <;> simp only [hwr] at hw
      · split at hw <;> simp at hw
      · simp only [Prod.mk.injEq, Except.ok.injEq] at hw
        obtain ⟨hfs, _⟩ := hw
        subst hfs
        have hfs3 : fs3 = mkp.1.set resolved (.file s) := fsWrite_ok_eq _ _ _ _ hwr
        simp only [handleReadFile, hfield, hres, hfs3, fsRead_set_file]
    · simp at hw
  rcases hcp : args.getField "create_parents" with _ | u <;> rw [hcp] at hw
  case none =>
    rcases hres : resolvePath st.root P with m | resolved <;> simp only [hres] at hw
    · exact absurd hw (by simp)
    · exact finish ((fs, none) : FS × Option FsFailure) resolved hres (by
        refine Eq.trans ?_ hw
        rfl)
  case some =>
    cases u with
    | bool b =>
      rcases hres : resolvePath st.root P with m | resolved <;> simp only [hres] at hw
      · exact absurd hw (by simp)
      · exact finish (if b = true then fsMkdirRec fs resolved.dropLast else (fs, none))
          resolved hres (by
            refine Eq.trans ?_ hw
            cases b <;> rfl)
    | null => simp at hw
    | num n => simp at hw
    | str s2 => simp at hw
    | arr es => simp at hw
    | obj f2 => simp at hw

theorem write_then_read_roundtrip_witness :
    handleReadFile sandboxState
        [(["sandbox", "f.txt"], .file "hi"), (["sandbox"], FsEntry.dir)]
        (.obj [("path", .str "f.txt")]) =
      ([(["sandbox", "f.txt"], .file "hi"), (["sandbox"], FsEntry.dir)],
       .ok ⟨"hi", false⟩) := by
  exact write_then_read_roundtrip sandboxState emptySandbox
    [(["sandbox", "f.txt"], .file "hi"), (["sandbox"], FsEntry.dir)]
    (.obj [("path", .str "f.txt"), ("content", .str "hi")])
    "f.txt" "hi" ⟨"Wrote f.txt", false⟩ rfl rfl (by rfl)

theorem unknown_tool_yields_protocol_error_witness :
    handleRequest sandboxState scenarioFS (.num 4) (.str "tools/call")
        (.obj [("name", .str "nonexistent_tool")]) =
      (scenarioFS, jsonrpcError (.num 4) (-32601) "Unknown tool 'nonexistent_tool'.") := by
  have h := (unknown_tool_yields_protocol_error sandboxState scenarioFS (.num 4)
      (.obj [("name", .str "nonexistent_tool")]) "nonexistent_tool" rfl rfl).1
  exact h.trans (by rfl)

/-! ## Claim C8 -/

/-- C8: listing an existing directory succeeds with `isError` false and
returns exactly the direct (non-recursive) children: each directory entry
carries a trailing `/` marker, the entries are sorted by the listing
comparator (`localeCompare`, modelled lexicographically), they are joined
with newlines, and an empty join renders as the literal `(empty)`. -/
theorem list_dir_sorted_marked_children (st : ServerState) (fs : FS) (args : Json)
    (userPath : String) (resolved : AbsPath) :
    args.getField "path" = some (.str userPath) →
    resolvePath st.root userPath = .ok resolved →
    fs.find resolved = some .dir →
    ∃ names : List String,
      names.Perm ((childEntries fs resolved).map markEntry) ∧
      names.Sorted SegLe ∧
      handleListDir st fs args =
        (fs, .ok ⟨if joinLines names = "" then "(empty)" else joinLines names, false⟩) := by
  intro hp hres hdir
  refine ⟨List.insertionSort SegLe ((childEntries fs resolved).map markEntry),
    List.perm_insertionSort _ _, List.sorted_insertionSort _ _, ?_⟩
  have hrd : fsReaddir fs resolved = .ok (childEntries fs resolved) := by
    unfold fsReaddir
    rw [hdir]
  simp only [handleListDir, hp, hres, hrd]

theorem list_dir_sorted_marked_children_witness :
    (∃ names : List String,
      names.Perm ((childEntries scenarioFS ["sandbox"]).map markEntry) ∧
      names.Sorted SegLe ∧
      handleListDir sandboxState scenarioFS (.obj [("path", .str ".")]) =
        (scenarioFS, .ok ⟨if joinLines names = "" then "(empty)" else joinLines names, false⟩)) ∧
    handleListDir sandboxState scenarioFS (.obj [("path", .str ".")]) =
      (scenarioFS, .ok ⟨"a/\nb.txt", false⟩) ∧
    handleListDir sandboxState emptySandbox (.obj [("path", .str ".")]) =
      (emptySandbox, .ok ⟨"(empty)", false⟩) := by
  refine ⟨list_dir_sorted_marked_children sandboxState scenarioFS
      (.obj [("path", .str ".")]) "." ["sandbox"] rfl rfl rfl, by rfl, by rfl⟩

/-! ## Claim C4 -/

/-- C4 counterexample: `list_dir` invoked with the declared `path` field
present with value JSON null — a wrong type where a string is declared —
does not fail: `args?.path ?? "."` coalesces the null to the default
`"."` and the call succeeds, listing the root. -/
theorem list_dir_null_path_not_rejected :
    (Json.obj [("path", Json.null)]).getField "path" = some Json.null ∧
    handleListDir sandboxState emptySandbox (.obj [("path", Json.null)]) =
      (emptySandbox, .ok ⟨"(empty)", false⟩) :=
  ⟨rfl, by rfl⟩

/-- C4 amended: every declared argument field present with a wrong-typed
value fails with a descriptive error naming the field before any
filesystem or network effect (the filesystem is returned unchanged and
the oracle is not consulted) — except that `list_dir` coalesces a present
null `path` to the default `"."` instead of rejecting it, and
`call_gemini` reports the unconfigured-client error before validating
anything when the Gemini client is absent. -/
theorem handlers_validate_present_arguments (st : ServerState) (fs : FS)
    (args : Json) :
    (∀ v, args.getField "path" = some v → (∀ s, v ≠ .str s) →
      handleReadFile st fs args = (fs, .error (.mcp "'path' must be a string."))) ∧
    (∀ v, args.getField "path" = some v → (∀ s, v ≠ .str s) →
      handleWriteFile st fs args = (fs, .error (.mcp "'path' must be a string."))) ∧
    (∀ P v, args.getField "path" = some (.str P) →
      args.getField "content" = some v → (∀ s, v ≠ .str s) →
      handleWriteFile st fs args = (fs, .error (.mcp "'content' must be a string."))) ∧
    (∀ P c v, args.getField "path" = some (.str P) →
      args.getField "content" = some (.str c) →
      args.getField "create_parents" = some v → (∀ b, v ≠ .bool b) →
      handleWriteFile st fs args = (fs, .error (.mcp "'create_parents' must be a boolean."))) ∧
    (args.getField "path" = some Json.null →
      handleListDir st fs args = handleListDir st fs (.obj [("path", .str ".")])) ∧
    (∀ v, args.getField "path" = some v → v ≠ .null → (∀ s, v ≠ .str s) →
      handleListDir st fs args = (fs, .error (.mcp "'path' must be a string."))) ∧
    (st.gemini = none →
      handleCallGemini st fs args =
        (fs, .error (.mcp "Gemini client is not configured. Ensure @google/generative-ai is installed and GOOGLE_API_KEY is exported."))) ∧
    (∀ oracle, st.gemini = some oracle →
      (∀ v, args.getField "prompt" = some v → (∀ s, v ≠ .str s) →
        handleCallGemini st fs args = (fs, .error (.mcp "'prompt' must be a string."))) ∧
      (∀ p v, args.getField "prompt" = some (.str p) →
        args.getField "system_prompt" = some v → (∀ s, v ≠ .str s) →
        handleCallGemini st fs args =
          (fs, .error (.mcp "'system_prompt' must be a string when provided."))) ∧
      (∀ p v, args.getField "prompt" = some (.str p) →
        (args.getField "system_prompt" = none ∨
          ∃ s, args.getField "system_prompt" = some (.str s)) →
        args.getField "temperature" = some v → (∀ n, v ≠ .num n) →
        handleCallGemini st fs args =
          (fs, .error (.mcp "'temperature' must be numeric when provided."))) ∧
      (∀ p v, args.getField "prompt" = some (.str p) →
        (args.getField "system_prompt" = none ∨
          ∃ s, args.getField "system_prompt" = some (.str s)) →
        (args.getField "temperature" = none ∨
          ∃ n, args.getField "temperature" = some (.num n)) →
        args.getField "top_p" = some v → (∀ n, v ≠ .num n) →
        handleCallGemini st fs args =
          (fs, .error (.mcp "'top_p' must be numeric when provided.")))) := by
  refine ⟨?_, ?_, ?_, ?_, ?_, ?_, ?_, ?_⟩
  · intro v hp hne
    cases v <;> first
      | exact absurd rfl (hne _)
      | simp [handleReadFile, hp]
  · intro v hp hne
    cases v <;> first
      | exact absurd rfl (hne _)
      | simp [handleWriteFile, hp]
  · intro P v hp hc hne
    cases v <;> first
      | exact absurd rfl (hne _)
      | simp [handleWriteFile, hp, hc]
  · intro P c v hp hc hcp hne
    cases v <;> first
      | exact absurd rfl (hne _)
      | simp [handleWriteFile, hp, hc, hcp]
  · intro hp
    simp only [handleListDir, hp]
    rfl
  · intro v hp hnull hne
    cases v <;> first
      | exact absurd rfl hnull
      | exact absurd rfl (hne _)
      | simp [handleListDir, hp]
  · intro hg
    simp [handleCallGemini, hg]
  · intro oracle hg
    refine ⟨?_, ?_, ?_, ?_⟩
    · intro v hp hne
      cases v <;> first
        | exact absurd rfl (hne _)
        | simp [handleCallGemini, hg, hp]
    · intro p v hp hs hne
      cases v <;> first
        | exact absurd rfl (hne _)
        | simp [handleCallGemini, hg, hp, hs]
    · intro p v hp hs ht hne
      rcases hs with hs | ⟨s2, hs⟩ <;>
        cases v <;> first
          | exact absurd rfl (hne _)
          | simp [handleCallGemini, hg, hp, hs, ht]
    · intro p v hp hs ht htp hne
      rcases hs with hs | ⟨s2, hs⟩ <;> rcases ht with ht | ⟨n2, ht⟩ <;>
        cases v <;> first
          | exact absurd rfl (hne _)
          | simp [handleCallGemini, hg, hp, hs, ht, htp]

theorem handlers_validate_present_arguments_witness :
    handleReadFile sandboxState emptySandbox (.obj [("path", .num 3)]) =
      (emptySandbox, .error (.mcp "'path' must be a string.")) :=
  (handlers_validate_present_arguments sandboxState emptySandbox
      (.obj [("path", .num 3)])).1 (.num 3) rfl (fun _ h => Json.noConfusion h)

/-! ## Claim C1: lemmas about the lexical path arithmetic -/

theorem string_data_eq_nil_iff (s : String) : s.data = [] ↔ s = "" := by
  constructor
  · intro h
    cases s with
    | mk d =>
      have hd : d = [] := h
      subst hd
      rfl
  · intro h
    subst h
    rfl

theorem dropLast_mem {α : Type} {s : α} {l : List α} (h : s ∈ l.dropLast) : s ∈ l :=
  (List.dropLast_sublist l).mem h

theorem foldl_normStep_append_plain (ws : List String) (acc : List String)
    (h : ∀ s ∈ ws, PlainSeg s) :
    ws.foldl normStep acc = acc ++ ws := by
  induction ws generalizing acc with
  | nil => simp
  | cons w ws ih =>
    obtain ⟨h1, h2, h3, _⟩ := h w (List.mem_cons_self w ws)
    have hstep : normStep acc w = acc ++ [w] := by
      unfold normStep
      rw [if_neg (by simp [h1, h2]), if_neg h3]
    rw [List.foldl_cons, hstep,
      ih (acc ++ [w]) (fun s hs => h s (List.mem_cons_of_mem _ hs))]
    simp

theorem foldl_normStep_plain_preserved (ws : List String) (acc : List String)
    (hacc : ∀ s ∈ acc, PlainSeg s) (hws : ∀ s ∈ ws, '/' ∉ s.data) :
    ∀ s ∈ ws.foldl normStep acc, PlainSeg s := by
  induction ws generalizing acc with
  | nil => exact hacc
  | cons w ws ih =>
    rw [List.foldl_cons]
    refine ih (normStep acc w) ?_ (fun s hs => hws s (List.mem_cons_of_mem _ hs))
    intro s hs
    by_cases hc1 : w = "" ∨ w = "."
    · rw [normStep, if_pos hc1] at hs
      exact hacc s hs
    · by_cases hc2 : w = ".."
      · rw [normStep, if_neg hc1, if_pos hc2] at hs
        exact hacc s (dropLast_mem hs)
      · rw [normStep, if_neg hc1, if_neg hc2] at hs
        rcases List.mem_append.mp hs with hmem | hmem
        · exact hacc s hmem
        · have hsw : s = w := by simpa using hmem
          subst hsw
          exact ⟨fun h => hc1 (Or.inl h), fun h => hc1 (Or.inr h), hc2,
            hws s (List.mem_cons_self ..)⟩

theorem splitSegsAux_no_slash (cs : List Char) (cur : List Char) (hcur : '/' ∉ cur) :
    ∀ s ∈ splitSegsAux cs cur, '/' ∉ s.data := by
  induction cs generalizing cur with
  | nil =>
    intro s hs
    have hseq : s = String.mk cur.reverse := by simpa [splitSegsAux] using hs
    subst hseq
    intro hmem
    exact hcur (List.mem_reverse.mp hmem)
  | cons c cs ih =>
    intro s hs
    by_cases hc : c = '/'
    · rw [splitSegsAux, if_pos hc] at hs
      rcases List.mem_cons.mp hs with hmem | hmem
      · subst hmem
        intro hmem2
        exact hcur (List.mem_reverse.mp hmem2)
      · exact ih [] (by simp) s hmem
    · rw [splitSegsAux, if_neg hc] at hs
      refine ih (c :: cur) ?_ s hs
      intro hmem
      rcases List.mem_cons.mp hmem with hmem2 | hmem2
      · exact hc hmem2.symm
      · exact hcur hmem2

theorem splitPath_no_slash (p : String) : ∀ s ∈ splitPath p, '/' ∉ s.data :=
  splitSegsAux_no_slash p.data [] (by simp)

theorem resolve_plain (root : List String) (p : String)
    (hroot : ∀ s ∈ root, PlainSeg s) :
    ∀ s ∈ resolve root p, PlainSeg s := by
  unfold resolve normalizeSegs
  split
  · exact foldl_normStep_plain_preserved (splitPath p) [] (by simp) (splitPath_no_slash p)
  · refine foldl_normStep_plain_preserved (root ++ splitPath p) [] (by simp) ?_
    intro s hs
    rcases List.mem_append.mp hs with hmem | hmem
    · exact (hroot s hmem).2.2.2
    · exact splitPath_no_slash p s hmem

theorem dropCommon_append (l rest : List String) :
    dropCommon l (l ++ rest) = ([], rest) := by
  induction l with
  | nil => rfl
  | cons a as ih =>
    show dropCommon (a :: as) (a :: (as ++ rest)) = ([], rest)
    rw [dropCommon, if_pos rfl]
    exact ih

theorem dropCommon_fst_ne_nil (l m : List String) (h : ¬ l <+: m) :
    (dropCommon l m).1 ≠ [] := by
  induction l generalizing m with
  | nil => exact absurd (List.nil_prefix ..) h
  | cons a as ih =>
    cases m with
    | nil => simp [dropCommon]
    | cons b bs =>
      by_cases hab : a = b
      · subst hab
        rw [dropCommon, if_pos rfl]
        refine ih bs (fun hp => h ?_)
        obtain ⟨t, ht⟩ := hp
        exact ⟨t, by rw [List.cons_append, ht]⟩
      · rw [dropCommon, if_neg hab]
        simp

theorem relativeSegs_of_prefix (root t : List String) :
    relativeSegs root (root ++ t) = t := by
  unfold relativeSegs
  rw [dropCommon_append]
  simp

theorem relativeSegs_head_dotdot (root R : List String) (h : ¬ root <+: R) :
    ∃ rest, relativeSegs root R = ".." :: rest := by
  obtain ⟨n, hn⟩ : ∃ n, (dropCommon root R).1.length = n + 1 := by
    rcases hf : (dropCommon root R).1 with _ | ⟨a, f2⟩
    · exact absurd hf (dropCommon_fst_ne_nil root R h)
    · exact ⟨f2.length, rfl⟩
  refine ⟨List.replicate n ".." ++ (dropCommon root R).2, ?_⟩
  unfold relativeSegs
  rw [hn, List.replicate_succ]
  rfl

theorem joinSegs_cons_cons (s t1 : String) (ts : List String) :
    joinSegs (s :: t1 :: ts) = s ++ "/" ++ joinSegs (t1 :: ts) := rfl

theorem jsStartsWith_dotdot_joinSegs (h : String) (t : List String)
    (hne : h ≠ "") (hdot : h ≠ ".") :
    jsStartsWith ".." (joinSegs (h :: t)) = jsStartsWith ".." h := by
  cases t with
  | nil => rfl
  | cons t1 ts =>
    rw [joinSegs_cons_cons]
    unfold jsStartsWith
    have hd : (h ++ "/" ++ joinSegs (t1 :: ts)).data
        = h.data ++ '/' :: (joinSegs (t1 :: ts)).data := by
      rw [String.data_append, String.data_append]
      simp
    rw [hd]
    rcases hcase : h.data with _ | ⟨c1, cs⟩
    · exact absurd ((string_data_eq_nil_iff h).mp hcase) hne
    · rcases cs with _ | ⟨c2, cs2⟩
      · have hc1 : c1 ≠ '.' := by
          intro h1
          subst h1
          apply hdot
          cases h with
          | mk d =>
            have hd2 : d = ['.'] := hcase
            subst hd2
            rfl
        have hne1 : ('.' == c1) = false := by
          cases hbe : ('.' == c1)
          · rfl
          · exact absurd (eq_of_beq hbe).symm hc1
        show (List.isPrefixOf ['.', '.'] (c1 :: '/' :: (joinSegs (t1 :: ts)).data))
            = List.isPrefixOf ['.', '.'] [c1]
        simp [List.isPrefixOf, hne1]
      · show (List.isPrefixOf ['.', '.'] (c1 :: c2 :: (cs2 ++ '/' :: (joinSegs (t1 :: ts)).data)))
            = List.isPrefixOf ['.', '.'] (c1 :: c2 :: cs2)
        simp [List.isPrefixOf]

theorem jsIsAbsolute_joinSegs (h : String) (t : List String)
    (hne : h ≠ "") (hns : '/' ∉ h.data) :
    jsIsAbsolute (joinSegs (h :: t)) = false := by
  obtain ⟨c, cs, hd, hc⟩ : ∃ c cs, h.data = c :: cs ∧ c ≠ '/' := by
    rcases hd : h.data with _ | ⟨c, cs⟩
    · exact absurd ((string_data_eq_nil_iff h).mp hd) hne
    · refine ⟨c, cs, rfl, fun hceq => hns ?_⟩
      rw [hd, hceq]
      exact List.mem_cons_self ..
  cases t with
  | nil =>
    show jsIsAbsolute h = false
    unfold jsIsAbsolute
    rw [hd]
    simp [hc]
  | cons t1 ts =>
    rw [joinSegs_cons_cons]
    have hdata : (h ++ "/" ++ joinSegs (t1 :: ts)).data
        = c :: (cs ++ '/' :: (joinSegs (t1 :: ts)).data) := by
      rw [String.data_append, String.data_append, hd]
      simp
    unfold jsIsAbsolute
    rw [hdata]
    simp [hc]

theorem jsStartsWith_dotdot_join_dotdot (t : List String) :
    jsStartsWith ".." (joinSegs (".." :: t)) = true := by
  cases t with
  | nil => rfl
  | cons t1 ts => rfl

/-- C1 counterexample: with root `/sandbox`, the user path `..x` joins and
normalizes to `/sandbox/..x`, which is strictly nested under the root, yet
`resolvePath` rejects it with the out-of-root error, because the relative
path `..x` begins with the two characters `..`. -/
theorem resolvePath_rejects_nested_dotdot_name :
    resolve ["sandbox"] "..x" = ["sandbox", "..x"] ∧
    (["sandbox"] : List String) <+: resolve ["sandbox"] "..x" ∧
    resolvePath ["sandbox"] "..x" =
      .error "Path '..x' is outside of the server root." :=
  ⟨rfl, ⟨["..x"], rfl⟩, rfl⟩

/-- C1 amended: for a normalized root, `resolvePath(p)` succeeds — and
then returns the normalized absolute join, which always lies at or under
the root — exactly when that join is the root itself, or is strictly
nested under the root with a first below-root segment that does not begin
with the two characters `..`; every other `p`, in particular every `p`
whose join falls outside the root, fails with the out-of-root error.
(Compared to the original claim: paths nested under the root whose first
segment merely begins with `..`, such as `..x`, are also rejected.) -/
theorem resolvePath_characterization (root : List String) (p : String)
    (hroot : ∀ s ∈ root, PlainSeg s) :
    ((resolvePath root p).isOk = true ↔
      (resolve root p = root ∨
       (root <+: resolve root p ∧ resolve root p ≠ root ∧
        jsStartsWith ".." (((resolve root p).drop root.length).headD "") = false))) ∧
    (∀ q, resolvePath root p = .ok q → q = resolve root p ∧ root <+: q) ∧
    ((resolvePath root p).isOk = false →
      resolvePath root p =
        .error ("Path '" ++ p ++ "' is outside of the server root.")) := by
  have hplain : ∀ s ∈ resolve root p, PlainSeg s := resolve_plain root p hroot
  by_cases heq : resolve root p = root
  · have hres : resolvePath root p = .ok (resolve root p) := by
      simp only [resolvePath]
      rw [if_pos heq]
    refine ⟨?_, ?_, ?_⟩
    · rw [hres]
      exact ⟨fun _ => Or.inl heq, fun _ => rfl⟩
    · intro q hq
      rw [hres] at hq
      cases hq
      refine ⟨rfl, ?_⟩
      rw [heq]
    · intro hfalse
      rw [hres] at hfalse
      exact Bool.noConfusion hfalse
  · by_cases hpre : root <+: resolve root p
    · obtain ⟨t, ht⟩ := hpre
      rcases t with _ | ⟨h1, t2⟩
      · exact absurd (by rw [← ht]; simp) heq
      · have hrel : relativeSegs root (resolve root p) = h1 :: t2 := by
          rw [← ht]
          exact relativeSegs_of_prefix root (h1 :: t2)
        have hmem : h1 ∈ resolve root p := by
          rw [← ht]
          exact List.mem_append.mpr (Or.inr (List.mem_cons_self ..))
        obtain ⟨hne, hdot, _, hns⟩ := hplain h1 hmem
        have hsw : jsStartsWith ".." (joinSegs (relativeSegs root (resolve root p)))
            = jsStartsWith ".." h1 := by
          rw [hrel]
          exact jsStartsWith_dotdot_joinSegs h1 t2 hne hdot
        have habs : jsIsAbsolute (joinSegs (relativeSegs root (resolve root p))) = false := by
          rw [hrel]
          exact jsIsAbsolute_joinSegs h1 t2 hne hns
        have hdrop : ((resolve root p).drop root.length).headD "" = h1 := by
          rw [← ht, List.drop_left]
          rfl
        cases hstart : jsStartsWith ".." h1 with
        | true =>
          have hres : resolvePath root p =
              .error ("Path '" ++ p ++ "' is outside of the server root.") := by
            simp only [resolvePath]
            rw [if_neg heq, if_pos (Or.inl (hsw.trans hstart))]
          refine ⟨?_, ?_, ?_⟩
          · rw [hres]
            constructor
            · intro hok
              exact Bool.noConfusion hok
            · rintro (hcase | ⟨_, _, hsw3⟩)
              · exact absurd hcase heq
              · rw [hdrop] at hsw3
                rw [hsw3] at hstart
                exact Bool.noConfusion hstart
          · intro q hq
            rw [hres] at hq
            cases hq
          · intro _
            exact hres
        | false =>
          have hres : resolvePath root p = .ok (resolve root p) := by
            simp only [resolvePath]
            rw [if_neg heq, if_neg ?_]
            rintro (hcase | hcase)
            · rw [hsw, hstart] at hcase
              exact Bool.noConfusion hcase
            · rw [habs] at hcase
              exact Bool.noConfusion hcase
          refine ⟨?_, ?_, ?_⟩
          · rw [hres]
            refine ⟨fun _ => Or.inr ⟨⟨h1 :: t2, ht⟩, heq, ?_⟩, fun _ => rfl⟩
            rw [hdrop]
            exact hstart
          · intro q hq
            rw [hres] at hq
            cases hq
            exact ⟨rfl, ⟨h1 :: t2, ht⟩⟩
          · intro hfalse
            rw [hres] at hfalse
            exact Bool.noConfusion hfalse
    · obtain ⟨rest, hrel⟩ := relativeSegs_head_dotdot root (resolve root p) hpre
      have hsw : jsStartsWith ".." (joinSegs (relativeSegs root (resolve root p))) = true := by
        rw [hrel]
        exact jsStartsWith_dotdot_join_dotdot rest
      have hres : resolvePath root p =
          .error ("Path '" ++ p ++ "' is outside of the server root.") := by
        simp only [resolvePath]
        rw [if_neg heq, if_pos (Or.inl hsw)]
      refine ⟨?_, ?_, ?_⟩
      · rw [hres]
        constructor
        · intro hok
          exact Bool.noConfusion hok
        · rintro (hcase | ⟨hp2, _, _⟩)
          · exact absurd hcase heq
          · exact absurd hp2 hpre
      · intro q hq
        rw [hres] at hq
        cases hq
      · intro _
        exact hres

theorem resolvePath_characterization_witness :
    (∀ s ∈ (["sandbox"] : List String), PlainSeg s) ∧
    ((resolvePath ["sandbox"] "a/b").isOk = true ↔
      (resolve ["sandbox"] "a/b" = ["sandbox"] ∨
       ((["sandbox"] : List String) <+: resolve ["sandbox"] "a/b" ∧
        resolve ["sandbox"] "a/b" ≠ ["sandbox"] ∧
        jsStartsWith ".."
          (((resolve ["sandbox"] "a/b").drop
            (["sandbox"] : List String).length).headD "") = false))) :=
  ⟨by decide, (resolvePath_characterization ["sandbox"] "a/b" (by decide)).1⟩

end AssetsCreator
